/-
Formal verification of the `svg-metadata` crate (mre/svg-metadata).

Shallow embedding of `src/lib.rs` and `src/error.rs`:
  * Rust `f64` values are modelled as exact rationals (`ℚ`); the crate only
    parses finite decimal literals for the fields under study and the spec
    (§3) requires no exponent or infinity support, so the rational model is
    exact on the quantified inputs.
  * The two lazily compiled regular expressions of the crate,
    `VBOX_ELEMENTS = ",?\s+"` (used with `Regex::split`) and
    `DIMENSION = "([\+|-]?\d+\.?\d*)(\D\D?)?"` (used with `Regex::captures`,
    i.e. leftmost match anywhere in the string, greedy quantifiers), are
    embedded as executable character-list functions with the same
    leftmost-greedy semantics, over the ASCII `\s`/`\d` classes that the
    inputs of interest exercise.
  * The XML collaborator (`roxmltree::Document::parse` / `root_element`) is
    external to the repository and is treated per spec §6 as a black box: a
    function from the input text to either an error string or a root element
    with string-keyed attribute lookup, passed as a parameter to
    `Metadata.parse`.
-/
import Mathlib

namespace SvgMetadata

/-- Embedding of `error::Metadata` (`src/error.rs`): an error carrying a
human-readable message string. -/
structure MetadataError where
  details : String
deriving DecidableEq, Repr

/-- ASCII semantics of the regex class `\s` (space, tab, newline, vertical
tab, form feed, carriage return). -/
def isWs (c : Char) : Bool :=
  c == ' ' || c == '\t' || c == '\n' || c == (Char.ofNat 11) || c == (Char.ofNat 12) || c == '\r'

/-- A character that can occur inside a viewBox token: neither whitespace
nor a comma, so it never takes part in a `",?\s+"` separator. -/
def plainChar (c : Char) : Bool := !(isWs c) && !(c == ',')

/-- Splitting engine for the `VBOX_ELEMENTS` regex `",?\s+"` used through
`Regex::split` in `TryFrom<&str> for ViewBox` (`src/lib.rs:145`).
`acc` is the current token accumulated in reverse; `inSep` records that we
are inside the whitespace run of a separator whose preceding token has
already been emitted.  A comma only participates in a separator when it is
immediately followed by whitespace (the regex needs `\s+`); matches are
leftmost and the whitespace run is taken greedily, exactly as Rust's regex
engine does for this pattern. -/
def splitAux : List Char → List Char → Bool → List String
  | [], acc, _ => [String.mk acc.reverse]
  | [c], acc, inSep =>
    if isWs c then
      if inSep then [String.mk acc.reverse]
      else [String.mk acc.reverse, ""]
    else if c == ',' then [String.mk (',' :: acc).reverse]
    else [String.mk (c :: acc).reverse]
  | c :: c2 :: rest2, acc, inSep =>
    if isWs c then
      if inSep then splitAux (c2 :: rest2) acc true
      else String.mk acc.reverse :: splitAux (c2 :: rest2) [] true
    else if c == ',' then
      if isWs c2 then String.mk acc.reverse :: splitAux rest2 [] true
      else splitAux (c2 :: rest2) (',' :: acc) false
    else splitAux (c2 :: rest2) (c :: acc) false

/-- `VBOX_ELEMENTS.split(s)` (`src/lib.rs:34` / `src/lib.rs:145`). -/
def vboxSplit (s : String) : List String := splitAux s.data [] false

/-- Digits of a decimal literal folded into a natural number. -/
def digitsVal (l : List Char) : ℕ :=
  l.foldl (fun a c => 10 * a + (c.toNat - 48)) 0

/-- The regex class `\d` as it occurs in both crate regexes (ASCII decimal
digit). -/
def isDigitChar (c : Char) : Bool := c.isDigit

/-- The unsigned part of a decimal literal as accepted by Rust's
`str::parse::<f64>()`: either `digits+ ['.' digits*]` or `'.' digits+`,
consuming the whole remaining input; the value is the exact rational the
literal denotes. -/
def parseUnsigned (l : List Char) : Option ℚ :=
  let ip := l.takeWhile isDigitChar
  let r1 := l.dropWhile isDigitChar
  match r1 with
  | [] => if ip.isEmpty then none else some ((digitsVal ip : ℚ))
  | c :: r2 =>
    if c == '.' then
      let fp := r2.takeWhile isDigitChar
      let r3 := r2.dropWhile isDigitChar
      if r3.isEmpty then
        if ip.isEmpty && fp.isEmpty then none
        else some ((digitsVal ip : ℚ) + (digitsVal fp : ℚ) / (10 : ℚ) ^ fp.length)
      else none
    else none

/-- Model of Rust's `str::parse::<f64>()` on finite decimal literals:
optional `+`/`-` sign followed by an unsigned decimal literal.  The value is
the exact rational denoted by the literal (the idealisation of the IEEE
rounding performed by Rust).  The special spellings `inf`/`infinity`/`nan`
and exponent forms accepted by Rust are outside this model; spec §3 requires
no exponent support and no claim exercises them. -/
def rustParseF64 (s : String) : Option ℚ :=
  match s.data with
  | [] => none
  | c :: r =>
    if c == '+' then parseUnsigned r
    else if c == '-' then (parseUnsigned r).map Neg.neg
    else parseUnsigned (c :: r)

/-- `elem[i].parse::<f64>()?` with the `From<ParseFloatError>` conversion of
`src/error.rs`: a parse failure becomes the error message
"Cannot convert string to float". -/
def parseFloat (t : String) : Except MetadataError ℚ :=
  match rustParseF64 t with
  | some v => .ok v
  | none => .error ⟨"Cannot convert string to float"⟩

/-- Embedding of `ViewBox` (`src/lib.rs:41`), `f64` fields as `ℚ`. -/
structure ViewBox where
  min_x : ℚ
  min_y : ℚ
  width : ℚ
  height : ℚ
deriving DecidableEq, Repr

/-- Embedding of `TryFrom<&str> for ViewBox` (`src/lib.rs:142-165`): split on
the `VBOX_ELEMENTS` regex, fail with the actual token count when it is not
four, otherwise parse the four tokens as floats in order. -/
def ViewBox.tryFrom (s : String) : Except MetadataError ViewBox :=
  match vboxSplit s with
  | [e0, e1, e2, e3] =>
    match parseFloat e0 with
    | .error e => .error e
    | .ok min_x =>
      match parseFloat e1 with
      | .error e => .error e
      | .ok min_y =>
        match parseFloat e2 with
        | .error e => .error e
        | .ok width =>
          match parseFloat e3 with
          | .error e => .error e
          | .ok height => .ok ⟨min_x, min_y, width, height⟩
  | l => .error ⟨"Invalid view_box: Expected four elements, got " ++ toString l.length⟩

/-- Embedding of the `Unit` enumeration (`src/lib.rs:54-73`). -/
inductive Unit where
  | Em
  | Ex
  | Px
  | Pt
  | Pc
  | Cm
  | Mm
  | In
  | Percent
deriving DecidableEq, Repr

/-- Model of Rust's `str::to_lowercase()` on the ASCII inputs of interest:
lowercase every character. -/
def lowercase (s : String) : String := String.mk (s.data.map Char.toLower)

/-- Embedding of `TryFrom<&str> for Unit` (`src/lib.rs:75-92`): the input is
lowercased and matched against the nine supported spellings; anything else
fails with a message naming the original (non-lowercased) token.  The Rust
`match` on `s.to_lowercase().as_ref()` is rendered as the equivalent chain
of string-equality tests. -/
def Unit.tryFrom (s : String) : Except MetadataError Unit :=
  if lowercase s = "em" then .ok .Em
  else if lowercase s = "ex" then .ok .Ex
  else if lowercase s = "px" then .ok .Px
  else if lowercase s = "pt" then .ok .Pt
  else if lowercase s = "pc" then .ok .Pc
  else if lowercase s = "cm" then .ok .Cm
  else if lowercase s = "mm" then .ok .Mm
  else if lowercase s = "in" then .ok .In
  else if lowercase s = "%" then .ok .Percent
  else .error ⟨"Unknown unit: " ++ s⟩

/-- The character class `[\+|-]` of the `DIMENSION` regex: note that it
contains the literal `|` besides `+` and `-`. -/
def isSignChar (c : Char) : Bool := c == '+' || c == '|' || c == '-'

/-- Greedy match of the `\d+\.?\d*` tail of `DIMENSION`'s first capture
group, starting at a position whose first character is a digit; returns the
matched characters and the remaining suffix. -/
def numTail (l : List Char) : List Char × List Char :=
  let d1 := l.takeWhile isDigitChar
  let r1 := l.dropWhile isDigitChar
  match r1 with
  | '.' :: r2 => (d1 ++ '.' :: r2.takeWhile isDigitChar, r2.dropWhile isDigitChar)
  | _ => (d1, r1)

/-- Greedy match of the optional second capture group `(\D\D?)?` of
`DIMENSION`: one non-digit character, and a second one when available;
`none` when the group does not participate in the match. -/
def unitTok : List Char → Option (List Char)
  | [] => none
  | c :: r =>
    if isDigitChar c then none
    else
      match r with
      | [] => some [c]
      | c2 :: _ => if isDigitChar c2 then some [c] else some [c, c2]

/-- Whether a (remaining) input starts with a digit: the lookahead needed
for a `[\+|-]` sign character to start a `DIMENSION` match. -/
def headDigit : List Char → Bool
  | c2 :: _ => isDigitChar c2
  | [] => false

/-- `DIMENSION.captures(s)` (`src/lib.rs:37`, used at `src/lib.rs:104`):
scan for the leftmost position where `([\+|-]?\d+\.?\d*)(\D\D?)?` matches (a
digit, or a sign character immediately followed by a digit), then take the
greedy match there.  Returns the two capture groups.  Capture group 1 is not
optional, so it is always present in a match (the `"No width specified"`
branch of `parse_dimension` is unreachable). -/
def dimFindAux : List Char → Option (List Char × Option (List Char))
  | [] => none
  | c :: rest =>
    if isDigitChar c then
      let p := numTail (c :: rest)
      some (p.1, unitTok p.2)
    else if isSignChar c && headDigit rest then
      let p := numTail rest
      some (c :: p.1, unitTok p.2)
    else dimFindAux rest

/-- `caps.get(2).map_or("em", |m| m.as_str())` (`src/lib.rs:112`): the unit
token of a `DIMENSION` match, defaulting to `"em"` when capture group 2 did
not participate. -/
def unitStrOf : Option (List Char) → String
  | none => "em"
  | some u => String.mk u

/-- Embedding of `parse_dimension` (`src/lib.rs:103-115`): run the
`DIMENSION` regex, fail with "Cannot read dimensions" when it matches
nowhere; otherwise parse capture group 1 as a float and resolve capture
group 2 (default `"em"` when absent) as a unit. -/
def parse_dimension (s : String) : Except MetadataError (ℚ × Unit) :=
  match dimFindAux s.data with
  | none => .error ⟨"Cannot read dimensions"⟩
  | some (g1, g2) =>
    match rustParseF64 (String.mk g1) with
    | none => .error ⟨"Cannot convert string to float"⟩
    | some v =>
      match Unit.tryFrom (unitStrOf g2) with
      | .error e => .error e
      | .ok u => .ok (v, u)

/-- Embedding of `Width` (`src/lib.rs:96-101`). -/
structure Width where
  width : ℚ
  unit : Unit
deriving DecidableEq, Repr

/-- `TryFrom<&str> for Width` (`src/lib.rs:117-123`). -/
def Width.tryFrom (s : String) : Except MetadataError Width :=
  match parse_dimension s with
  | .ok (w, u) => .ok ⟨w, u⟩
  | .error e => .error e

/-- Embedding of `Height` (`src/lib.rs:127-132`). -/
structure Height where
  height : ℚ
  unit : Unit
deriving DecidableEq, Repr

/-- `TryFrom<&str> for Height` (`src/lib.rs:134-140`). -/
def Height.tryFrom (s : String) : Except MetadataError Height :=
  match parse_dimension s with
  | .ok (h, u) => .ok ⟨h, u⟩
  | .error e => .error e

/-- Embedding of `Metadata` (`src/lib.rs:170-179`). -/
structure Metadata where
  view_box : Option ViewBox
  width : Option Width
  height : Option Height
deriving DecidableEq, Repr

/-- The XML collaborator's root element (spec §6): string-keyed attribute
lookup is all the crate uses of it. -/
structure XmlRoot where
  attrs : List (String × String)
deriving DecidableEq, Repr

/-- `svg_elem.attribute(name)` of roxmltree: the value of the first
attribute with the given name, when present. -/
def XmlRoot.attribute (r : XmlRoot) (name : String) : Option String :=
  (r.attrs.find? (fun p => p.1 == name)).map (fun p => p.2)

/-- Embedding of `Metadata::parse` (`src/lib.rs:249-272`).  The external XML
parser (`roxmltree::Document::parse` plus `root_element`, spec §6) is passed
as a parameter `xmlParse`: it either fails with an error string (converted
into a `MetadataError` by the `From<XMLError>` impl of `src/error.rs`) or
yields the root element.  Each of the three attributes is then parsed
independently, `.ok()` turning an attribute-level parse failure into
`none`. -/
def Metadata.parse (xmlParse : String → Except String XmlRoot) (input : String) :
    Except MetadataError Metadata :=
  match xmlParse input with
  | .error e => .error ⟨e⟩
  | .ok svg_elem =>
    let view_box :=
      match svg_elem.attribute "viewBox" with
      | some val => (ViewBox.tryFrom val).toOption
      | none => none
    let width :=
      match svg_elem.attribute "width" with
      | some val => (Width.tryFrom val).toOption
      | none => none
    let height :=
      match svg_elem.attribute "height" with
      | some val => (Height.tryFrom val).toOption
      | none => none
    .ok ⟨view_box, width, height⟩

/-- Embedding of the accessor `Metadata::width` (`src/lib.rs:278-287`),
named `resolved_width` as in spec §4.4 because the Lean field projection
already takes the name `width`.  A percent-valued width with a present
viewBox resolves against the viewBox width; every other present width is
returned unmodified. -/
def Metadata.resolved_width (m : Metadata) : Option ℚ :=
  match m.width with
  | some w =>
    if w.unit = Unit.Percent then
      match m.view_box with
      | some v => some (w.width / 100 * v.width)
      | none => m.width.map Width.width
    else m.width.map Width.width
  | none => m.width.map Width.width

/-- Embedding of the accessor `Metadata::height` (`src/lib.rs:293-302`),
named `resolved_height` as in spec §4.4. -/
def Metadata.resolved_height (m : Metadata) : Option ℚ :=
  match m.height with
  | some h =>
    if h.unit = Unit.Percent then
      match m.view_box with
      | some v => some (h.height / 100 * v.height)
      | none => m.height.map Height.height
    else m.height.map Height.height
  | none => m.height.map Height.height

/-! ### Helper lemmas -/

theorem plain_spec (c : Char) (h : plainChar c = true) :
    isWs c = false ∧ (c == ',') = false := by
  simp only [plainChar, Bool.and_eq_true, Bool.not_eq_true'] at h
  exact h

theorem digit_plain (c : Char) (h : isDigitChar c = true) : plainChar c = true := by
  have hw : isWs c = false := by
    rcases Bool.eq_false_or_eq_true (isWs c) with ht | hf
    · exfalso
      simp only [isWs, Bool.or_eq_true, beq_iff_eq] at ht
      rcases ht with ((((h1 | h1) | h1) | h1) | h1) | h1 <;> subst h1 <;>
        exact absurd h (by decide)
    · exact hf
  have hc : (c == ',') = false := by
    rcases Bool.eq_false_or_eq_true (c == ',') with ht | hf
    · exfalso
      rw [beq_iff_eq] at ht
      subst ht
      exact absurd h (by decide)
    · exact hf
  simp [plainChar, hw, hc]

theorem parseUnsigned_plain (l : List Char) (v : ℚ) (h : parseUnsigned l = some v) :
    l ≠ [] ∧ ∀ c ∈ l, plainChar c = true := by
  unfold parseUnsigned at h
  rcases hr : l.dropWhile isDigitChar with _ | ⟨c, r2⟩
  · rw [hr] at h
    simp only at h
    by_cases hip : (l.takeWhile isDigitChar).isEmpty
    · rw [if_pos hip] at h
      exact absurd h (by simp)
    · have hall : l.takeWhile isDigitChar = l := by
        conv_rhs => rw [← List.takeWhile_append_dropWhile isDigitChar l]
        rw [hr, List.append_nil]
      constructor
      · intro hnil
        subst hnil
        simp at hip
      · intro x hx
        rw [← hall] at hx
        exact digit_plain x (List.mem_takeWhile_imp hx)
  · rw [hr] at h
    simp only at h
    by_cases hdot : (c == '.')
    · rw [if_pos hdot] at h
      have hc : c = '.' := by simpa using hdot
      rcases hr3 : r2.dropWhile isDigitChar with _ | ⟨c3, r3⟩
      · rw [hr3] at h
        have hl : l = l.takeWhile isDigitChar ++ '.' :: r2.takeWhile isDigitChar := by
          conv_lhs => rw [← List.takeWhile_append_dropWhile isDigitChar l]
          rw [hr, hc]
          congr 2
          conv_lhs => rw [← List.takeWhile_append_dropWhile isDigitChar r2]
          rw [hr3, List.append_nil]
        constructor
        · rw [hl]; simp
        · intro x hx
          rw [hl] at hx
          rcases List.mem_append.mp hx with hx | hx
          · exact digit_plain x (List.mem_takeWhile_imp hx)
          · rcases List.mem_cons.mp hx with rfl | hx
            · decide
            · exact digit_plain x (List.mem_takeWhile_imp hx)
      · rw [hr3] at h
        exact absurd h (by simp)
    · rw [if_neg hdot] at h
      exact absurd h (by simp)

theorem rustParseF64_plain (s : String) (v : ℚ) (h : rustParseF64 s = some v) :
    s.data ≠ [] ∧ ∀ c ∈ s.data, plainChar c = true := by
  unfold rustParseF64 at h
  rcases hd : s.data with _ | ⟨c, r⟩
  · rw [hd] at h
    exact absurd h (by simp)
  · rw [hd] at h
    simp only at h
    by_cases h1 : (c == '+')
    · rw [if_pos h1] at h
      obtain ⟨-, hall⟩ := parseUnsigned_plain r v h
      refine ⟨by simp, ?_⟩
      intro x hx
      rcases List.mem_cons.mp hx with rfl | hx
      · have hc : x = '+' := by simpa using h1
        rw [hc]; decide
      · exact hall x hx
    · rw [if_neg h1] at h
      by_cases h2 : (c == '-')
      · rw [if_pos h2] at h
        obtain ⟨w, hw, -⟩ := Option.map_eq_some'.mp h
        obtain ⟨-, hall⟩ := parseUnsigned_plain r w hw
        refine ⟨by simp, ?_⟩
        intro x hx
        rcases List.mem_cons.mp hx with rfl | hx
        · have hc : x = '-' := by simpa using h2
          rw [hc]; decide
        · exact hall x hx
      · rw [if_neg h2] at h
        obtain ⟨-, hall⟩ := parseUnsigned_plain (c :: r) v h
        exact ⟨by simp, hall⟩

theorem splitAux_cons_plain (c : Char) (l : List Char) (acc : List Char)
    (hc : plainChar c = true) :
    splitAux (c :: l) acc false = splitAux l (c :: acc) false := by
  obtain ⟨hw, hcm⟩ := plain_spec c hc
  cases l with
  | nil => simp [splitAux, hw, hcm]
  | cons c2 r => simp [splitAux, hw, hcm]

theorem splitAux_plain (t : List Char) :
    ∀ (rest acc : List Char), (∀ c ∈ t, plainChar c = true) →
      splitAux (t ++ rest) acc false = splitAux rest (t.reverse ++ acc) false := by
  induction t with
  | nil => intro rest acc _; simp
  | cons c t' ih =>
    intro rest acc hall
    rw [List.cons_append, splitAux_cons_plain c (t' ++ rest) acc (hall c (by simp)),
      ih rest (c :: acc) (fun x hx => hall x (by simp [hx]))]
    simp

theorem splitAux_ws_cons (c : Char) (l : List Char) (acc : List Char) (hc : isWs c = true) :
    splitAux (c :: l) acc true = splitAux l acc true := by
  cases l with
  | nil => simp [splitAux, hc]
  | cons c2 r => simp [splitAux, hc]

theorem splitAux_ws_cons_false (c : Char) (l : List Char) (acc : List Char)
    (hc : isWs c = true) :
    splitAux (c :: l) acc false = String.mk acc.reverse :: splitAux l [] true := by
  cases l with
  | nil => simp [splitAux, hc]
  | cons c2 r => simp [splitAux, hc]

theorem splitAux_comma_ws (c2 : Char) (l : List Char) (acc : List Char)
    (hc2 : isWs c2 = true) :
    splitAux (',' :: c2 :: l) acc false = String.mk acc.reverse :: splitAux l [] true := by
  simp only [splitAux]
  rw [if_neg (by decide), if_pos (by decide), if_pos hc2]

theorem splitAux_ws_all (w : List Char) :
    ∀ (rest acc : List Char), (∀ c ∈ w, isWs c = true) →
      splitAux (w ++ rest) acc true = splitAux rest acc true := by
  induction w with
  | nil => intro rest acc _; simp
  | cons c w' ih =>
    intro rest acc hall
    rw [List.cons_append, splitAux_ws_cons c (w' ++ rest) acc (hall c (by simp)),
      ih rest acc (fun x hx => hall x (by simp [hx]))]

theorem splitAux_exit (l : List Char)
    (h : ∀ c, l.head? = some c → plainChar c = true) :
    splitAux l [] true = splitAux l [] false := by
  cases l with
  | nil => rfl
  | cons c r =>
    obtain ⟨hw, hcm⟩ := plain_spec c (h c rfl)
    cases r with
    | nil => simp [splitAux, hw, hcm]
    | cons c2 r2 => simp [splitAux, hw, hcm]

/-- The two separator shapes of claim C3: a single space, or a comma
followed by one or more spaces. -/
inductive VBoxSep where
  | space : VBoxSep
  | commaSpaces (extra : ℕ) : VBoxSep
deriving DecidableEq, Repr

/-- The separator as a string: `" "` or `","` followed by `extra + 1`
spaces. -/
def VBoxSep.render : VBoxSep → String
  | .space => " "
  | .commaSpaces extra => String.mk (',' :: List.replicate (extra + 1) ' ')

theorem splitAux_sep (sep : VBoxSep) (rest : List Char) (acc : List Char)
    (h : ∀ c, rest.head? = some c → plainChar c = true) :
    splitAux (sep.render.data ++ rest) acc false
      = String.mk acc.reverse :: splitAux rest [] false := by
  cases sep with
  | space =>
    show splitAux (' ' :: rest) acc false = _
    rw [splitAux_ws_cons_false ' ' rest acc (by decide), splitAux_exit rest h]
  | commaSpaces n =>
    show splitAux ((',' :: List.replicate (n + 1) ' ') ++ rest) acc false = _
    rw [List.replicate_succ, List.cons_append, List.cons_append,
      splitAux_comma_ws ' ' (List.replicate n ' ' ++ rest) acc (by decide),
      splitAux_ws_all (List.replicate n ' ') rest []
        (fun c hc => by rw [List.eq_of_mem_replicate hc]; decide),
      splitAux_exit rest h]

theorem splitAux_token (t : List Char) (h : ∀ c ∈ t, plainChar c = true) :
    splitAux t [] false = [String.mk t] := by
  have h2 := splitAux_plain t [] [] h
  simp only [List.append_nil] at h2
  rw [h2]
  simp [splitAux]

theorem mk_data (s : String) : String.mk s.data = s := rfl

theorem head_plain_of_all (l : List Char) (hall : ∀ c ∈ l, plainChar c = true) :
    ∀ c, l.head? = some c → plainChar c = true := by
  intro c hc
  cases l with
  | nil => simp at hc
  | cons c0 r =>
    simp only [List.head?_cons, Option.some.injEq] at hc
    subst hc
    exact hall c0 (by simp)

theorem head_plain_of_plain (l X : List Char)
    (hl : l ≠ []) (hall : ∀ c ∈ l, plainChar c = true) :
    ∀ c, (l ++ X).head? = some c → plainChar c = true := by
  intro c hc
  cases l with
  | nil => exact absurd rfl hl
  | cons c0 r =>
    simp only [List.cons_append, List.head?_cons, Option.some.injEq] at hc
    subst hc
    exact hall c0 (by simp)

theorem vboxSplit_join (a b c d : String) (s1 s2 s3 : VBoxSep)
    (_ha1 : a.data ≠ []) (ha2 : ∀ ch ∈ a.data, plainChar ch = true)
    (hb1 : b.data ≠ []) (hb2 : ∀ ch ∈ b.data, plainChar ch = true)
    (hc1 : c.data ≠ []) (hc2 : ∀ ch ∈ c.data, plainChar ch = true)
    (_hd1 : d.data ≠ []) (hd2 : ∀ ch ∈ d.data, plainChar ch = true) :
    vboxSplit (a ++ s1.render ++ b ++ s2.render ++ c ++ s3.render ++ d) = [a, b, c, d] := by
  unfold vboxSplit
  have hdata : (a ++ s1.render ++ b ++ s2.render ++ c ++ s3.render ++ d).data
      = a.data ++ (s1.render.data ++ (b.data ++ (s2.render.data
          ++ (c.data ++ (s3.render.data ++ d.data))))) := by
    simp [String.data_append, List.append_assoc]
  rw [hdata,
    splitAux_plain a.data _ [] ha2,
    splitAux_sep s1 _ _ (head_plain_of_plain b.data _ hb1 hb2),
    splitAux_plain b.data _ [] hb2,
    splitAux_sep s2 _ _ (head_plain_of_plain c.data _ hc1 hc2),
    splitAux_plain c.data _ [] hc2,
    splitAux_sep s3 _ _ (head_plain_of_all d.data hd2),
    splitAux_token d.data hd2]
  simp [mk_data]

theorem tryFrom_len_ne (s : String) (h : (vboxSplit s).length ≠ 4) :
    ViewBox.tryFrom s = .error ⟨"Invalid view_box: Expected four elements, got "
      ++ toString (vboxSplit s).length⟩ := by
  unfold ViewBox.tryFrom
  rcases hl : vboxSplit s with _ | ⟨t0, _ | ⟨t1, _ | ⟨t2, _ | ⟨t3, _ | ⟨t4, r⟩⟩⟩⟩⟩
  · rfl
  · rfl
  · rfl
  · rfl
  · exact absurd (by rw [hl]; simp : (vboxSplit s).length = 4) h
  · rfl

theorem vboxSplit_leading_ws (w s : String) (hwn : w.data ≠ [])
    (hws : ∀ c ∈ w.data, isWs c = true)
    (hhead : ∀ c, s.data.head? = some c → plainChar c = true) :
    vboxSplit (w ++ s) = "" :: vboxSplit s := by
  unfold vboxSplit
  rw [String.data_append]
  rcases hw : w.data with _ | ⟨ch, w'⟩
  · exact absurd hw hwn
  · rw [List.cons_append,
      splitAux_ws_cons_false ch _ [] (hws ch (by rw [hw]; simp)),
      splitAux_ws_all w' s.data [] (fun x hx => hws x (by rw [hw]; simp [hx])),
      splitAux_exit s.data hhead]
    rfl

theorem splitAux_trailing_ws_token (t w : List Char)
    (ht : ∀ c ∈ t, plainChar c = true) (hwn : w ≠ [])
    (hws : ∀ c ∈ w, isWs c = true) :
    splitAux (t ++ w) [] false = [String.mk t, ""] := by
  rw [splitAux_plain t w [] ht]
  cases w with
  | nil => exact absurd rfl hwn
  | cons ch w' =>
    rw [splitAux_ws_cons_false ch w' _ (hws ch (by simp))]
    have h2 : splitAux w' [] true = [""] := by
      have h3 := splitAux_ws_all w' [] [] (fun x hx => hws x (by simp [hx]))
      simp only [List.append_nil] at h3
      rw [h3]
      rfl
    rw [h2]
    simp

theorem dimFindAux_none_iff (l : List Char) :
    dimFindAux l = none ↔ ∀ c ∈ l, isDigitChar c = false := by
  induction l with
  | nil => simp [dimFindAux]
  | cons c rest ih =>
    constructor
    · intro h x hx
      unfold dimFindAux at h
      by_cases hc : isDigitChar c = true
      · rw [if_pos hc] at h
        exact absurd h (by simp)
      · rw [if_neg hc] at h
        by_cases hs : (isSignChar c && headDigit rest) = true
        · rw [if_pos hs] at h
          exact absurd h (by simp)
        · rw [if_neg hs] at h
          rcases List.mem_cons.mp hx with rfl | hx
          · exact Bool.eq_false_iff.mpr hc
          · exact ih.mp h x hx
    · intro h
      unfold dimFindAux
      have hc : isDigitChar c = false := h c (by simp)
      rw [if_neg (by simp [hc])]
      have hs : (isSignChar c && headDigit rest) = false := by
        cases rest with
        | nil => simp [headDigit]
        | cons c2 r =>
          have h2 : isDigitChar c2 = false := h c2 (by simp)
          simp [headDigit, h2]
      rw [if_neg (by simp [hs])]
      exact ih.mpr (fun x hx => h x (by simp [hx]))

theorem unit_tryFrom_error (s : String) (e : MetadataError)
    (h : Unit.tryFrom s = .error e) : e = ⟨"Unknown unit: " ++ s⟩ := by
  unfold Unit.tryFrom at h
  split_ifs at h
  exact (Except.error.inj h).symm

theorem unknown_msg_ne (t : String) :
    ("Unknown unit: " ++ t : String) ≠ "Cannot read dimensions" := by
  intro h
  have h2 := congrArg String.data h
  rw [String.data_append] at h2
  have h3 := congrArg (fun l => l[0]?) h2
  simp only at h3
  rw [List.getElem?_append_left (by decide)] at h3
  exact absurd h3 (by decide)

theorem parse_dimension_noMagnitude (s : String)
    (h : parse_dimension s = .error ⟨"Cannot read dimensions"⟩) :
    dimFindAux s.data = none := by
  unfold parse_dimension at h
  split at h
  · assumption
  · exfalso
    split at h
    · exact absurd (MetadataError.mk.inj (Except.error.inj h)) (by decide)
    · split at h
      · rename_i e heq
        have he := unit_tryFrom_error _ e heq
        have h4 := Except.error.inj h
        rw [he] at h4
        exact unknown_msg_ne _ (MetadataError.mk.inj h4)
      · exact absurd h (by simp)

/-! ### The claims -/

/-- Claim C1: for every input string whose XML parses successfully into a
document, `Metadata.parse` returns `Ok`; a `viewBox`/`width`/`height`
attribute that is present but fails its own parser yields `none` for that
field only and never causes a top-level error; an absent attribute yields
`none`; and `Metadata.parse` returns an error exactly when the XML
collaborator cannot parse the text as a document at all. -/
theorem claim_C1 (xmlParse : String → Except String XmlRoot) (input : String) :
    (∀ e, xmlParse input = .error e → Metadata.parse xmlParse input = .error ⟨e⟩)
    ∧ (∀ root, xmlParse input = .ok root →
        ∃ m, Metadata.parse xmlParse input = .ok m
          ∧ (root.attribute "viewBox" = none → m.view_box = none)
          ∧ (∀ v e, root.attribute "viewBox" = some v →
              ViewBox.tryFrom v = .error e → m.view_box = none)
          ∧ (root.attribute "width" = none → m.width = none)
          ∧ (∀ v e, root.attribute "width" = some v →
              Width.tryFrom v = .error e → m.width = none)
          ∧ (root.attribute "height" = none → m.height = none)
          ∧ (∀ v e, root.attribute "height" = some v →
              Height.tryFrom v = .error e → m.height = none))
    ∧ ((∃ e, Metadata.parse xmlParse input = .error e)
        ↔ ∃ e, xmlParse input = .error e) := by
  refine ⟨?_, ?_, ?_⟩
  · intro e he
    unfold Metadata.parse
    rw [he]
  · intro root hr
    unfold Metadata.parse
    rw [hr]
    refine ⟨_, rfl, ?_, ?_, ?_, ?_, ?_, ?_⟩
    · intro hattr
      simp [hattr]
    · intro v e hattr herr
      simp [hattr, herr, Except.toOption]
    · intro hattr
      simp [hattr]
    · intro v e hattr herr
      simp [hattr, herr, Except.toOption]
    · intro hattr
      simp [hattr]
    · intro v e hattr herr
      simp [hattr, herr, Except.toOption]
  · constructor
    · rintro ⟨e, he⟩
      rcases hx : xmlParse input with e2 | root
      · exact ⟨e2, rfl⟩
      · unfold Metadata.parse at he
        rw [hx] at he
        exact absurd he (by simp)
    · rintro ⟨e, he⟩
      exact ⟨⟨e⟩, by unfold Metadata.parse; rw [he]⟩

theorem claim_C1_witness :
    ∃ m, Metadata.parse (fun _ => .ok ⟨[("viewBox", "0 1 99"), ("width", "2em")]⟩) "<svg/>"
        = .ok m ∧ m.view_box = none ∧ m.height = none := by
  obtain ⟨m, hm, -, hvb, -, -, hh, -⟩ :=
    (claim_C1 (fun _ => .ok ⟨[("viewBox", "0 1 99"), ("width", "2em")]⟩) "<svg/>").2.1
      ⟨[("viewBox", "0 1 99"), ("width", "2em")]⟩ rfl
  exact ⟨m, hm,
    hvb "0 1 99" ⟨"Invalid view_box: Expected four elements, got 3"⟩ rfl
      (by with_unfolding_all rfl),
    hh rfl⟩

/-- Claim C2: the `width()` accessor returns
`some (width.magnitude / 100 * view_box.width)` when the width is present
with unit `Percent` and a view box is present; returns `some width.magnitude`
unmodified in every other case where the width is present (including a
percent-valued width with no view box); and returns `none` when the width
is absent.  `height()` behaves symmetrically against `view_box.height`. -/
theorem claim_C2 (m : Metadata) :
    (∀ w v, m.width = some w → w.unit = Unit.Percent → m.view_box = some v →
      m.resolved_width = some (w.width / 100 * v.width))
    ∧ (∀ w, m.width = some w → (w.unit ≠ Unit.Percent ∨ m.view_box = none) →
      m.resolved_width = some w.width)
    ∧ (m.width = none → m.resolved_width = none)
    ∧ (∀ h v, m.height = some h → h.unit = Unit.Percent → m.view_box = some v →
      m.resolved_height = some (h.height / 100 * v.height))
    ∧ (∀ h, m.height = some h → (h.unit ≠ Unit.Percent ∨ m.view_box = none) →
      m.resolved_height = some h.height)
    ∧ (m.height = none → m.resolved_height = none) := by
  refine ⟨?_, ?_, ?_, ?_, ?_, ?_⟩
  · intro w v hw hu hv
    simp [Metadata.resolved_width, hw, hu, hv]
  · intro w hw hcase
    rcases hcase with hu | hv
    · simp [Metadata.resolved_width, hw, hu]
    · by_cases hu : w.unit = Unit.Percent
      · simp [Metadata.resolved_width, hw, hu, hv]
      · simp [Metadata.resolved_width, hw, hu]
  · intro hw
    simp [Metadata.resolved_width, hw]
  · intro h v hh hu hv
    simp [Metadata.resolved_height, hh, hu, hv]
  · intro h hh hcase
    rcases hcase with hu | hv
    · simp [Metadata.resolved_height, hh, hu]
    · by_cases hu : h.unit = Unit.Percent
      · simp [Metadata.resolved_height, hh, hu, hv]
      · simp [Metadata.resolved_height, hh, hu]
  · intro hh
    simp [Metadata.resolved_height, hh]

theorem claim_C2_witness :
    (Metadata.mk (some ⟨0, 1, 99, 100⟩) (some ⟨100, Unit.Percent⟩) none).resolved_width
        = some (100 / 100 * 99)
    ∧ (Metadata.mk none (some ⟨100, Unit.Percent⟩) (some ⟨7, Unit.Cm⟩)).resolved_width
        = some 100
    ∧ (Metadata.mk none (some ⟨100, Unit.Percent⟩) (some ⟨7, Unit.Cm⟩)).resolved_height
        = some 7
    ∧ (Metadata.mk (some ⟨0, 1, 99, 100⟩) (some ⟨100, Unit.Percent⟩) none).resolved_height
        = none := by
  refine ⟨?_, ?_, ?_, ?_⟩
  · exact (claim_C2 _).1 ⟨100, .Percent⟩ ⟨0, 1, 99, 100⟩ rfl rfl rfl
  · exact (claim_C2 _).2.1 ⟨100, .Percent⟩ rfl (Or.inr rfl)
  · exact (claim_C2 _).2.2.2.2.1 ⟨7, .Cm⟩ rfl (Or.inl (by decide))
  · exact (claim_C2 _).2.2.2.2.2 rfl

/-- Claim C3: for all four numbers `a`, `b`, `c`, `d` joined by any mix of
single-space separators and comma-plus-one-or-more-spaces separators, the
ViewBox parser succeeds and returns exactly
`{min_x: a, min_y: b, width: c, height: d}`. -/
theorem claim_C3 (a b c d : String) (va vb vc vd : ℚ) (s1 s2 s3 : VBoxSep)
    (ha : rustParseF64 a = some va) (hb : rustParseF64 b = some vb)
    (hc : rustParseF64 c = some vc) (hd : rustParseF64 d = some vd) :
    ViewBox.tryFrom (a ++ s1.render ++ b ++ s2.render ++ c ++ s3.render ++ d)
      = .ok ⟨va, vb, vc, vd⟩ := by
  obtain ⟨ha1, ha2⟩ := rustParseF64_plain a va ha
  obtain ⟨hb1, hb2⟩ := rustParseF64_plain b vb hb
  obtain ⟨hc1, hc2⟩ := rustParseF64_plain c vc hc
  obtain ⟨hd1, hd2⟩ := rustParseF64_plain d vd hd
  have hsplit := vboxSplit_join a b c d s1 s2 s3 ha1 ha2 hb1 hb2 hc1 hc2 hd1 hd2
  unfold ViewBox.tryFrom
  rw [hsplit]
  simp [parseFloat, ha, hb, hc, hd]

theorem claim_C3_witness :
    ViewBox.tryFrom ("0" ++ VBoxSep.space.render ++ "1" ++ (VBoxSep.commaSpaces 1).render
        ++ "99" ++ VBoxSep.space.render ++ "100") = .ok ⟨0, 1, 99, 100⟩ :=
  claim_C3 "0" "1" "99" "100" 0 1 99 100 .space (.commaSpaces 1) .space
    (by with_unfolding_all rfl) (by with_unfolding_all rfl)
    (by with_unfolding_all rfl) (by with_unfolding_all rfl)

/-- Claim C4: for every viewBox string whose split on the separator grammar
yields a token count different from four, the ViewBox parser fails with an
error reporting the actual token count; in particular a string using bare
commas with no whitespace, such as `"0,1,99,100"`, is not split and
therefore fails. -/
theorem claim_C4 :
    (∀ s : String, (vboxSplit s).length ≠ 4 →
        ViewBox.tryFrom s = .error ⟨"Invalid view_box: Expected four elements, got "
          ++ toString (vboxSplit s).length⟩)
    ∧ vboxSplit "0,1,99,100" = ["0,1,99,100"]
    ∧ ViewBox.tryFrom "0,1,99,100"
        = .error ⟨"Invalid view_box: Expected four elements, got 1"⟩ :=
  ⟨fun s h => tryFrom_len_ne s h, by decide, by with_unfolding_all rfl⟩

theorem claim_C4_witness :
    (vboxSplit "0 1").length ≠ 4
    ∧ ViewBox.tryFrom "0 1"
        = .error ⟨"Invalid view_box: Expected four elements, got 2"⟩ :=
  ⟨by decide, (claim_C4.1 "0 1" (by decide)).trans (by with_unfolding_all rfl)⟩

/-- Claim C5: the Length parser satisfies `parse("100") = {100.0, Em}` (the
unit defaults to `Em` when no suffix is present), `parse("100em") =
{100.0, Em}`, `parse("-10.0px") = {-10.0, Px}`, and unit matching is
case-insensitive, so `parse("100EM")` equals `parse("100em")`. -/
theorem claim_C5 :
    parse_dimension "100" = .ok (100, Unit.Em)
    ∧ parse_dimension "100em" = .ok (100, Unit.Em)
    ∧ parse_dimension "-10.0px" = .ok (-10, Unit.Px)
    ∧ parse_dimension "100EM" = parse_dimension "100em" :=
  ⟨by with_unfolding_all rfl, by with_unfolding_all rfl,
    by with_unfolding_all rfl, by with_unfolding_all rfl⟩

/-- Claim C6, counterexample: `"x100"` does not begin with a numeric
literal (its first character `'x'` is neither a digit nor a sign), yet the
Length parser succeeds on it with `{100.0, Em}` instead of failing with the
no-magnitude error, because the `DIMENSION` regex matches anywhere in the
string, not only at its start. -/
theorem claim_C6_counterexample :
    "x100".data.head? = some 'x'
    ∧ isDigitChar 'x' = false
    ∧ isSignChar 'x' = false
    ∧ parse_dimension "x100" = .ok (100, Unit.Em)
    ∧ parse_dimension "x100" ≠ .error ⟨"Cannot read dimensions"⟩ := by
  refine ⟨by decide, by decide, by decide, by with_unfolding_all rfl, ?_⟩
  intro h
  rw [show parse_dimension "x100" = .ok (100, Unit.Em) from by with_unfolding_all rfl] at h
  exact absurd h (by simp)

/-- Claim C6, amended: the Length parser fails with the no-magnitude error
(`"Cannot read dimensions"`) exactly when the `DIMENSION` regex matches
nowhere in the input, i.e. when the input contains no digit character at
all; an input that merely does not *begin* with a numeric literal can still
be parsed from a later position. -/
theorem claim_C6 :
    (∀ s : String, (∀ c ∈ s.data, isDigitChar c = false) →
        parse_dimension s = .error ⟨"Cannot read dimensions"⟩)
    ∧ (∀ s : String, (∃ c ∈ s.data, isDigitChar c = true) →
        parse_dimension s ≠ .error ⟨"Cannot read dimensions"⟩) := by
  constructor
  · intro s h
    unfold parse_dimension
    rw [(dimFindAux_none_iff s.data).mpr h]
  · intro s h hcontra
    obtain ⟨c, hc, hd⟩ := h
    have hnone := parse_dimension_noMagnitude s hcontra
    have := (dimFindAux_none_iff s.data).mp hnone c hc
    rw [hd] at this
    exact absurd this (by decide)

theorem claim_C6_witness :
    parse_dimension "abc" = .error ⟨"Cannot read dimensions"⟩
    ∧ parse_dimension "x100" ≠ .error ⟨"Cannot read dimensions"⟩ :=
  ⟨claim_C6.1 "abc" (by decide), claim_C6.2 "x100" (by decide)⟩

/-- Claim C7: the Unit resolver performs a case-insensitive exact match
against the nine supported spellings `{em, ex, px, pt, pc, cm, mm, in, %}`:
`resolve("%") = Percent`; two tokens with the same lowercasing resolve to
the same unit (or both fail); and every token whose lowercasing is outside
the nine spellings fails with an "unknown unit" error whose message names
the exact input token, not a lowercased copy. -/
theorem claim_C7 :
    Unit.tryFrom "%" = .ok .Percent
    ∧ (∀ s t, lowercase s = lowercase t →
        (Unit.tryFrom s).toOption = (Unit.tryFrom t).toOption)
    ∧ (∀ s, lowercase s ∉ (["em", "ex", "px", "pt", "pc", "cm", "mm", "in", "%"] : List String) →
        Unit.tryFrom s = .error ⟨"Unknown unit: " ++ s⟩) := by
  refine ⟨by with_unfolding_all rfl, ?_, ?_⟩
  · intro s t h
    unfold Unit.tryFrom
    rw [h]
    split_ifs <;> rfl
  · intro s h
    simp only [List.mem_cons, List.not_mem_nil, or_false, not_or] at h
    obtain ⟨h1, h2, h3, h4, h5, h6, h7, h8, h9⟩ := h
    unfold Unit.tryFrom
    rw [if_neg h1, if_neg h2, if_neg h3, if_neg h4, if_neg h5, if_neg h6,
      if_neg h7, if_neg h8, if_neg h9]

theorem claim_C7_witness :
    lowercase "ZZ" ∉ (["em", "ex", "px", "pt", "pc", "cm", "mm", "in", "%"] : List String)
    ∧ Unit.tryFrom "ZZ" = .error ⟨"Unknown unit: ZZ"⟩
    ∧ lowercase "EM" = lowercase "em"
    ∧ (Unit.tryFrom "EM").toOption = (Unit.tryFrom "em").toOption := by
  refine ⟨by decide, ?_, by decide, ?_⟩
  · exact (claim_C7.2.2 "ZZ" (by decide)).trans (by with_unfolding_all rfl)
  · exact claim_C7.2.1 "EM" "em" (by decide)

/-- Claim C8: the ViewBox parser performs no range validation: for every
viewBox string of exactly four parseable numbers, negative width and height
values and `min_x`/`min_y` of any sign are accepted, and the resulting
`ViewBox` stores each parsed value verbatim. -/
theorem claim_C8 (s e0 e1 e2 e3 : String) (va vb vc vd : ℚ)
    (hsplit : vboxSplit s = [e0, e1, e2, e3])
    (h0 : rustParseF64 e0 = some va) (h1 : rustParseF64 e1 = some vb)
    (h2 : rustParseF64 e2 = some vc) (h3 : rustParseF64 e3 = some vd) :
    ViewBox.tryFrom s = .ok ⟨va, vb, vc, vd⟩ := by
  unfold ViewBox.tryFrom
  rw [hsplit]
  simp [parseFloat, h0, h1, h2, h3]

theorem claim_C8_witness :
    ViewBox.tryFrom "-0, 1, -99.00001, -100.3"
      = .ok ⟨-0, 1, -(9900001 / 100000), -(1003 / 10)⟩ :=
  claim_C8 "-0, 1, -99.00001, -100.3" "-0" "1" "-99.00001" "-100.3"
    (-0) 1 (-(9900001 / 100000)) (-(1003 / 10))
    (by decide) (by with_unfolding_all rfl) (by with_unfolding_all rfl)
    (by with_unfolding_all rfl) (by with_unfolding_all rfl)

/-- Claim C9: `Metadata.parse` is deterministic: parsing the same SVG text
twice (with the same XML collaborator) yields equal results, with no hidden
state affecting the outcome across calls — the embedding is a pure
function of its input. -/
theorem claim_C9 (xmlParse : String → Except String XmlRoot) (s t : String)
    (h : s = t) :
    Metadata.parse xmlParse s = Metadata.parse xmlParse t := by
  rw [h]

theorem claim_C9_witness :
    Metadata.parse (fun _ => .error "bad xml") "<svg"
      = Metadata.parse (fun _ => .error "bad xml") "<svg" :=
  claim_C9 (fun _ => .error "bad xml") "<svg" "<svg" rfl

/-- Claim C10: a viewBox attribute string that begins or ends with
whitespace fails to parse even when it contains exactly four well-formed
numbers, because the whitespace-based split produces an empty extra token
and the token-count check sees five tokens. -/
theorem claim_C10 (w a b c d : String) (va vb vc vd : ℚ) (s1 s2 s3 : VBoxSep)
    (hwn : w.data ≠ []) (hws : ∀ ch ∈ w.data, isWs ch = true)
    (ha : rustParseF64 a = some va) (hb : rustParseF64 b = some vb)
    (hc : rustParseF64 c = some vc) (hd : rustParseF64 d = some vd) :
    (vboxSplit (w ++ (a ++ s1.render ++ b ++ s2.render ++ c ++ s3.render ++ d))
        = ["", a, b, c, d]
      ∧ ViewBox.tryFrom (w ++ (a ++ s1.render ++ b ++ s2.render ++ c ++ s3.render ++ d))
        = .error ⟨"Invalid view_box: Expected four elements, got 5"⟩)
    ∧ (vboxSplit ((a ++ s1.render ++ b ++ s2.render ++ c ++ s3.render ++ d) ++ w)
        = [a, b, c, d, ""]
      ∧ ViewBox.tryFrom ((a ++ s1.render ++ b ++ s2.render ++ c ++ s3.render ++ d) ++ w)
        = .error ⟨"Invalid view_box: Expected four elements, got 5"⟩) := by
  obtain ⟨ha1, ha2⟩ := rustParseF64_plain a va ha
  obtain ⟨hb1, hb2⟩ := rustParseF64_plain b vb hb
  obtain ⟨hc1, hc2⟩ := rustParseF64_plain c vc hc
  obtain ⟨hd1, hd2⟩ := rustParseF64_plain d vd hd
  have hbody := vboxSplit_join a b c d s1 s2 s3 ha1 ha2 hb1 hb2 hc1 hc2 hd1 hd2
  have hlead : vboxSplit (w ++ (a ++ s1.render ++ b ++ s2.render ++ c ++ s3.render ++ d))
      = ["", a, b, c, d] := by
    rw [vboxSplit_leading_ws w _ hwn hws ?_, hbody]
    intro ch hch
    have hdata : (a ++ s1.render ++ b ++ s2.render ++ c ++ s3.render ++ d).data
        = a.data ++ (s1.render.data ++ (b.data ++ (s2.render.data
            ++ (c.data ++ (s3.render.data ++ d.data))))) := by
      simp [String.data_append, List.append_assoc]
    rw [hdata] at hch
    exact head_plain_of_plain a.data _ ha1 ha2 ch hch
  have htrail : vboxSplit ((a ++ s1.render ++ b ++ s2.render ++ c ++ s3.render ++ d) ++ w)
      = [a, b, c, d, ""] := by
    unfold vboxSplit
    have hdata : ((a ++ s1.render ++ b ++ s2.render ++ c ++ s3.render ++ d) ++ w).data
        = a.data ++ (s1.render.data ++ (b.data ++ (s2.render.data
            ++ (c.data ++ (s3.render.data ++ (d.data ++ w.data)))))) := by
      simp [String.data_append, List.append_assoc]
    rw [hdata,
      splitAux_plain a.data _ [] ha2,
      splitAux_sep s1 _ _ (head_plain_of_plain b.data _ hb1 hb2),
      splitAux_plain b.data _ [] hb2,
      splitAux_sep s2 _ _ (head_plain_of_plain c.data _ hc1 hc2),
      splitAux_plain c.data _ [] hc2,
      splitAux_sep s3 _ _ (head_plain_of_plain d.data _ hd1 hd2),
      splitAux_trailing_ws_token d.data w.data hd2 hwn hws]
    simp [mk_data]
  refine ⟨⟨hlead, ?_⟩, ⟨htrail, ?_⟩⟩
  · have hlen : (vboxSplit (w ++ (a ++ s1.render ++ b ++ s2.render ++ c
        ++ s3.render ++ d))).length ≠ 4 := by
      rw [hlead]
      simp
    have h2 := tryFrom_len_ne _ hlen
    rw [hlead] at h2
    exact h2.trans (by with_unfolding_all rfl)
  · have hlen : (vboxSplit ((a ++ s1.render ++ b ++ s2.render ++ c
        ++ s3.render ++ d) ++ w)).length ≠ 4 := by
      rw [htrail]
      simp
    have h2 := tryFrom_len_ne _ hlen
    rw [htrail] at h2
    exact h2.trans (by with_unfolding_all rfl)

theorem claim_C10_witness :
    ViewBox.tryFrom (" " ++ ("0" ++ VBoxSep.space.render ++ "1" ++ VBoxSep.space.render
        ++ "99" ++ VBoxSep.space.render ++ "100"))
      = .error ⟨"Invalid view_box: Expected four elements, got 5"⟩
    ∧ ViewBox.tryFrom (("0" ++ VBoxSep.space.render ++ "1" ++ VBoxSep.space.render
        ++ "99" ++ VBoxSep.space.render ++ "100") ++ " ")
      = .error ⟨"Invalid view_box: Expected four elements, got 5"⟩ := by
  have h := claim_C10 " " "0" "1" "99" "100" 0 1 99 100 .space .space .space
    (by decide) (by decide)
    (by with_unfolding_all rfl) (by with_unfolding_all rfl)
    (by with_unfolding_all rfl) (by with_unfolding_all rfl)
  exact ⟨h.1.2, h.2.2⟩

end SvgMetadata
